import Mathlib

/-!
# Verification of rusty_dodger (src/main.rs)

Shallow embedding of the game logic of `src/main.rs` (a Bevy arcade game):
axis-aligned bounding-box collision, motion integration with a player clamp,
a repeating spawn timer, the collision/game-over monitor, and the restart path.

Numeric model: the Rust code uses `f32`; we model the arithmetic over `ℚ`
(exact rationals).  All operations involved (addition, subtraction,
multiplication, division by 2, comparison, clamping, the timer wrap) are
exact on the program's constants, so `ℚ` is a faithful idealisation of the
intended real-number semantics.

The Bevy ECS is modelled as explicit lists of entity records; the per-tick
scheduling (`run_if(in_state(...))`, `OnExit`/`OnEnter` systems) is modelled
as explicit gating in the per-tick step functions, following `fn main`.
-/

namespace RustyDodger

/-- 2-D vector, embedding Bevy's `Vec2` over `ℚ`. -/
structure Vec2 where
  x : ℚ
  y : ℚ
  deriving DecidableEq, Repr

/-- 3-D vector, embedding Bevy's `Vec3` over `ℚ`. -/
structure Vec3 where
  x : ℚ
  y : ℚ
  z : ℚ
  deriving DecidableEq, Repr

/-- `Vec3::truncate`: drop the z coordinate. -/
def Vec3.truncate (v : Vec3) : Vec2 := ⟨v.x, v.y⟩

/-- `Vec2::extend`: append a z coordinate. -/
def Vec2.extend (v : Vec2) (z : ℚ) : Vec3 := ⟨v.x, v.y, z⟩

/-- Componentwise addition of `Vec2`. -/
def Vec2.add (a b : Vec2) : Vec2 := ⟨a.x + b.x, a.y + b.y⟩

/-- Componentwise subtraction of `Vec2`. -/
def Vec2.sub (a b : Vec2) : Vec2 := ⟨a.x - b.x, a.y - b.y⟩

/-- Division of a `Vec2` by a scalar (`size / 2.0` in the source). -/
def Vec2.divScalar (a : Vec2) (s : ℚ) : Vec2 := ⟨a.x / s, a.y / s⟩

/-- Componentwise addition of `Vec3`. -/
def Vec3.add (a b : Vec3) : Vec3 := ⟨a.x + b.x, a.y + b.y, a.z + b.z⟩

/-- Multiplication of a `Vec3` by a scalar (`v * dt` in the source). -/
def Vec3.mulScalar (a : Vec3) (s : ℚ) : Vec3 := ⟨a.x * s, a.y * s, a.z * s⟩

/-- `const PLAYER_SIZE: Vec2 = Vec2::new(50.0, 50.0)`. -/
def PLAYER_SIZE : Vec2 := ⟨50, 50⟩

/-- `const PLAYER_SPEED: f32 = 500.0`. -/
def PLAYER_SPEED : ℚ := 500

/-- `const ENEMY_SIZE: Vec2 = Vec2::new(40.0, 40.0)`. -/
def ENEMY_SIZE : Vec2 := ⟨40, 40⟩

/-- `const ENEMY_SPEED: f32 = 300.0`. -/
def ENEMY_SPEED : ℚ := 300

/-- `const ENEMY_SPAWN_TIME: f32 = 0.75`. -/
def ENEMY_SPAWN_TIME : ℚ := 3 / 4

/-- Embedding of `fn collide(pos_a, size_a, pos_b, size_b) -> bool`
(src/main.rs 36-49): axis-aligned bounding-box overlap test on the truncated
(x, y) positions, with strict inequalities on both axes. -/
def collide (pos_a : Vec3) (size_a : Vec2) (pos_b : Vec3) (size_b : Vec2) : Bool :=
  let a_min := (pos_a.truncate).sub (size_a.divScalar 2)
  let a_max := (pos_a.truncate).add (size_a.divScalar 2)
  let b_min := (pos_b.truncate).sub (size_b.divScalar 2)
  let b_max := (pos_b.truncate).add (size_b.divScalar 2)
  decide (a_min.x < b_max.x) && decide (a_max.x > b_min.x) &&
  decide (a_min.y < b_max.y) && decide (a_max.y > b_min.y)

/-- Bevy `Transform`: translation and scale (the program stores each sprite's
size in the transform's scale, see `setup_game` and `enemy_spawner`). -/
structure Transform where
  translation : Vec3
  scale : Vec3
  deriving DecidableEq, Repr

/-- An entity as matched by the `move_entities` query
`Query<(&mut Transform, &Velocity, Option<&Player>)>`: a transform, a
`Velocity` component, and whether the `Player` marker is present. -/
structure MovingEntity where
  transform : Transform
  velocity : Vec2
  isPlayer : Bool
  deriving DecidableEq, Repr

/-- Bevy `Window`: logical width and height. -/
structure Window where
  width : ℚ
  height : ℚ
  deriving DecidableEq, Repr

/-- Rust `f32::clamp(self, min, max)`: panics when `min > max` (modelled as
`none`); otherwise returns `min` when `self < min`, `max` when `self > max`,
and `self` otherwise. -/
def rustClamp (x lo hi : ℚ) : Option ℚ :=
  if lo ≤ hi then some (if x < lo then lo else if x > hi then hi else x) else none

/-- One iteration of the loop body of `move_entities` (src/main.rs 135-143):
`transform.translation += velocity.0.extend(0.0) * dt`, then, when the entity
is the Player, clamp the x coordinate into `[x_min, x_max]` (a `clamp` panic
is modelled as `none`). -/
def moveEntity (dt x_min x_max : ℚ) (e : MovingEntity) : Option MovingEntity :=
  let p := e.transform.translation.add ((e.velocity.extend 0).mulScalar dt)
  if e.isPlayer then
    match rustClamp p.x x_min x_max with
    | some cx =>
        some { e with transform := { e.transform with translation := ⟨cx, p.y, p.z⟩ } }
    | none => none
  else
    some { e with transform := { e.transform with translation := p } }

/-- `fn move_entities` (src/main.rs 125-144): computes the clamp bounds
`x_min = -W/2 + half_player_width`, `x_max = W/2 - half_player_width` from the
window width and runs the loop body over every matched entity in order. -/
def move_entities (dt : ℚ) (window : Window) : List MovingEntity → Option (List MovingEntity)
  | [] => some []
  | e :: es =>
    match moveEntity dt (-window.width / 2 + PLAYER_SIZE.x / 2)
            (window.width / 2 - PLAYER_SIZE.x / 2) e,
          move_entities dt window es with
    | some e', some es' => some (e' :: es')
    | _, _ => none

/-- Bevy `Timer` in `TimerMode::Repeating`, as used by `EnemySpawnTimer`: the
fixed period, the elapsed time within the current period, and how many whole
periods were completed by the last `tick` call
(`times_finished_this_tick`). -/
structure Timer where
  duration : ℚ
  elapsed : ℚ
  timesFinishedThisTick : ℕ
  deriving DecidableEq, Repr

/-- `Timer::from_seconds(d, TimerMode::Repeating)`. -/
def Timer.fromSeconds (d : ℚ) : Timer := ⟨d, 0, 0⟩

/-- `Timer::tick(delta)` for a repeating timer: add `delta` to the elapsed
time; when the period is reached (`elapsed >= duration`), record how many
whole periods fit (`times_finished_this_tick = elapsed / duration`) and wrap
the elapsed time to `elapsed % duration`; otherwise
`times_finished_this_tick` is 0. -/
def Timer.tick (t : Timer) (delta : ℚ) : Timer :=
  let e := t.elapsed + delta
  if t.duration ≤ e then
    { t with elapsed := e - t.duration * (⌊e / t.duration⌋ : ℚ),
             timesFinishedThisTick := (⌊e / t.duration⌋).toNat }
  else
    { t with elapsed := e, timesFinishedThisTick := 0 }

/-- `Timer::just_finished()`: the last `tick` completed at least one
period. -/
def Timer.justFinished (t : Timer) : Bool := decide (0 < t.timesFinishedThisTick)

/-- `enum GameState { Playing, GameOver }` (src/main.rs 31-35). -/
inductive GameState where
  | Playing
  | GameOver
  deriving DecidableEq, Repr

/-- An entity of the ECS store, as touched by this program's systems: the
`Player` / `Enemy` marker components, the `Text` component of the game-over
notice, the `Camera2d` marker, the transform, and the optional `Velocity`. -/
structure Entity where
  player : Bool
  enemy : Bool
  text : Bool
  camera : Bool
  transform : Transform
  velocity : Option Vec2
  deriving DecidableEq, Repr

/-- rand's `Rng::gen_range(low..high)` on a float range: panics when the
range is empty (`low >= high`), modelled as `none`; otherwise returns the
sample drawn uniformly from the half-open range `[low, high)`, modelled by
the injected value `rngX` (theorems constrain `rngX` to that support). -/
def gen_range (low high rngX : ℚ) : Option ℚ :=
  if low < high then some rngX else none

/-- `fn enemy_spawner` (src/main.rs 147-183) for one tick: advance the timer
by the elapsed time; exactly when it just finished, draw
`x = rng.gen_range(-W/2 + half_enemy_width .. W/2 - half_enemy_width)`
(a `gen_range` panic on an empty range, i.e. W <= ENEMY_SIZE.x, makes the
whole call `none`) and spawn one Enemy entity at `(x, window.height / 2, 0)`
with scale `ENEMY_SIZE.extend(1.0)` and velocity `(0, -ENEMY_SPEED)`. -/
def enemy_spawner (delta : ℚ) (window : Window) (rngX : ℚ) (timer : Timer) :
    Option (Timer × Option Entity) :=
  let t := timer.tick delta
  if t.justFinished then
    match gen_range (-window.width / 2 + ENEMY_SIZE.x / 2)
        (window.width / 2 - ENEMY_SIZE.x / 2) rngX with
    | some x =>
        some (t, some ⟨false, true, false, false,
          ⟨⟨x, window.height / 2, 0⟩, ENEMY_SIZE.extend 1⟩,
          some ⟨0, -ENEMY_SPEED⟩⟩)
    | none => none
  else
    some (t, none)

/-- Running the spawner's timer over a list of tick durations. -/
def runTimer (t : Timer) : List ℚ → Timer
  | [] => t
  | d :: ds => runTimer (t.tick d) ds

/-- Total number of completed periods over a run of ticks. -/
def totalFires (t : Timer) : List ℚ → ℕ
  | [] => 0
  | d :: ds => (t.tick d).timesFinishedThisTick + totalFires (t.tick d) ds

/-- Total number of Enemies spawned over a run of ticks: one per tick in
which the timer just finished (src/main.rs 157). -/
def spawnCount (t : Timer) : List ℚ → ℕ
  | [] => 0
  | d :: ds => (if (t.tick d).justFinished then 1 else 0) + spawnCount (t.tick d) ds

/-- Every tick of the run completes at most one period (no single tick spans
more than one period boundary). -/
def atMostOnePerTick (t : Timer) : List ℚ → Bool
  | [] => true
  | d :: ds =>
      decide ((t.tick d).timesFinishedThisTick ≤ 1) && atMostOnePerTick (t.tick d) ds

/-- `Query::get_single()`: `Ok` exactly when exactly one entity matches. -/
def getSingle (p : Entity → Bool) (es : List Entity) : Option Entity :=
  match es.filter p with
  | [e] => some e
  | _ => none

/-- `fn check_collisions` (src/main.rs 186-208): with exactly one Player,
scan the enemies in order for the first whose box overlaps the Player's
(`collide` on translations and truncated scales); on a hit, despawn the
Player, set the next state to GameOver and stop scanning. -/
def check_collisions (es : List Entity) (st : GameState) : List Entity × GameState :=
  match getSingle (fun e => e.player) es with
  | none => (es, st)
  | some p =>
      match (es.filter (fun e => e.enemy)).find? (fun en =>
          collide p.transform.translation (p.transform.scale.truncate)
            en.transform.translation (en.transform.scale.truncate)) with
      | none => (es, st)
      | some _ => (es.filter (fun e => !e.player), GameState.GameOver)

/-- The per-tick gating of `check_collisions` in `fn main` (src/main.rs
61-70): the system is scheduled with `run_if(in_state(GameState::Playing))`,
so it runs only while Playing. -/
def check_collisions_system (es : List Entity) (st : GameState) :
    List Entity × GameState :=
  if st = GameState.Playing then check_collisions es st else (es, st)

/-- `fn despawn_all_entities` (src/main.rs 231-238): despawn every entity
matching `Or<(With<Enemy>, With<Text>)>`, leaving all others in place. -/
def despawn_all_entities : List Entity → List Entity
  | [] => []
  | e :: es =>
      if e.enemy || e.text then despawn_all_entities es
      else e :: despawn_all_entities es

/-- The Player entity spawned by `fn setup_game` (src/main.rs 84-102):
translation (0, -250, 0), scale `PLAYER_SIZE.extend(1.0)`, `Velocity`
`Vec2::ZERO`. -/
def playerEntity : Entity :=
  ⟨true, false, false, false, ⟨⟨0, -250, 0⟩, PLAYER_SIZE.extend 1⟩, some ⟨0, 0⟩⟩

/-- `fn setup_game` run on `OnEnter(GameState::Playing)`: spawn the Player. -/
def setup_game (es : List Entity) : List Entity := es ++ [playerEntity]

/-- The camera entity spawned by `fn setup_camera` (src/main.rs 78-81):
only the `Camera2d` marker, default transform. -/
def cameraEntity : Entity :=
  ⟨false, false, false, true, ⟨⟨0, 0, 0⟩, ⟨1, 1, 1⟩⟩, none⟩

/-- One GameOver-tick of the restart path, following `fn main` (src/main.rs
71-73) and `fn restart_game` (src/main.rs 221-228): `restart_game` runs only
`in_state(GameState::GameOver)`; when `R` was just pressed it sets the next
state to Playing, whereupon the state transition runs `despawn_all_entities`
on `OnExit(GameState::GameOver)` and `setup_game` on
`OnEnter(GameState::Playing)`. -/
def restart_tick (keyRJustPressed : Bool) (es : List Entity) (st : GameState) :
    List Entity × GameState :=
  if st = GameState.GameOver then
    if keyRJustPressed then
      (setup_game (despawn_all_entities es), GameState.Playing)
    else (es, st)
  else (es, st)

/-- A successful `rustClamp` lands in the interval. -/
theorem rustClamp_bounds {x lo hi c : ℚ} (h : rustClamp x lo hi = some c) :
    lo ≤ c ∧ c ≤ hi := by
  unfold rustClamp at h
  by_cases hlh : lo ≤ hi
  · rw [if_pos hlh] at h
    injection h with h
    subst h
    by_cases h1 : x < lo
    · rw [if_pos h1]
      exact ⟨le_refl lo, hlh⟩
    · rw [if_neg h1]
      by_cases h2 : x > hi
      · rw [if_pos h2]
        exact ⟨hlh, le_refl hi⟩
      · rw [if_neg h2]
        exact ⟨le_of_not_lt h1, le_of_not_lt h2⟩
  · rw [if_neg hlh] at h
    cases h

/-- `rustClamp` succeeds whenever the interval is nonempty. -/
theorem rustClamp_isSome (x lo hi : ℚ) (h : lo ≤ hi) :
    ∃ c, rustClamp x lo hi = some c := by
  unfold rustClamp
  rw [if_pos h]
  exact ⟨_, rfl⟩

/-- A Player produced by the loop body has its x coordinate inside the clamp
bounds. -/
theorem moveEntity_player_bounds {dt lo hi : ℚ} {e e1 : MovingEntity}
    (h : moveEntity dt lo hi e = some e1) (hp : e1.isPlayer = true) :
    lo ≤ e1.transform.translation.x ∧ e1.transform.translation.x ≤ hi := by
  simp only [moveEntity] at h
  by_cases hpe : e.isPlayer = true
  · rw [if_pos hpe] at h
    cases hc : rustClamp (e.transform.translation.add ((e.velocity.extend 0).mulScalar dt)).x lo hi with
    | none => rw [hc] at h; cases h
    | some cx =>
        rw [hc] at h
        injection h with h
        subst h
        exact rustClamp_bounds hc
  · rw [if_neg hpe] at h
    injection h with h
    subst h
    exact absurd hp hpe

/-- C1: `collide` holds iff |dx| < (w1+w2)/2 and |dy| < (h1+h2)/2 with strict
inequalities; exactly touching boxes (gap 0) do not collide; a Player-sized
box at (0,-250) overlaps an Enemy-sized box at the same center but not one at
(100,-250). -/
theorem collide_iff_strict_overlap :
    (∀ (pa : Vec3) (sa : Vec2) (pb : Vec3) (sb : Vec2),
      collide pa sa pb sb = true ↔
        |pa.x - pb.x| < (sa.x + sb.x) / 2 ∧ |pa.y - pb.y| < (sa.y + sb.y) / 2)
    ∧ collide ⟨0, -250, 0⟩ PLAYER_SIZE ⟨45, -250, 0⟩ ENEMY_SIZE = false
    ∧ collide ⟨0, -250, 0⟩ PLAYER_SIZE ⟨0, -250, 0⟩ ENEMY_SIZE = true
    ∧ collide ⟨0, -250, 0⟩ PLAYER_SIZE ⟨100, -250, 0⟩ ENEMY_SIZE = false := by
  have key : ∀ (pa : Vec3) (sa : Vec2) (pb : Vec3) (sb : Vec2),
      collide pa sa pb sb = true ↔
        |pa.x - pb.x| < (sa.x + sb.x) / 2 ∧ |pa.y - pb.y| < (sa.y + sb.y) / 2 := by
    intro pa sa pb sb
    simp only [collide, Vec3.truncate, Vec2.sub, Vec2.add, Vec2.divScalar,
      Bool.and_eq_true, decide_eq_true_eq, abs_sub_lt_iff]
    constructor
    · rintro ⟨⟨⟨h1, h2⟩, h3⟩, h4⟩
      exact ⟨⟨by linarith, by linarith⟩, by linarith, by linarith⟩
    · rintro ⟨⟨h1, h2⟩, h3, h4⟩
      exact ⟨⟨⟨by linarith, by linarith⟩, by linarith⟩, by linarith⟩
  refine ⟨key, ?_, ?_, ?_⟩
  · rw [Bool.eq_false_iff]
    intro h
    have hp := (key _ _ _ _).mp h
    norm_num [PLAYER_SIZE, ENEMY_SIZE] at hp
  · exact (key _ _ _ _).mpr (by norm_num [PLAYER_SIZE, ENEMY_SIZE])
  · rw [Bool.eq_false_iff]
    intro h
    have hp := (key _ _ _ _).mp h
    norm_num [PLAYER_SIZE, ENEMY_SIZE] at hp

/-- C3: after an integration tick that completes, with a positive tick
duration, every Player entity's horizontal coordinate lies in the closed
interval [-W/2 + half_player_width, W/2 - half_player_width]. -/
theorem player_x_within_bounds (dt : ℚ) (w : Window) (es es' : List MovingEntity)
    (_hdt : 0 < dt) (h : move_entities dt w es = some es') :
    ∀ e' ∈ es', e'.isPlayer = true →
      -w.width / 2 + PLAYER_SIZE.x / 2 ≤ e'.transform.translation.x ∧
      e'.transform.translation.x ≤ w.width / 2 - PLAYER_SIZE.x / 2 := by
  induction es generalizing es' with
  | nil =>
      simp only [move_entities, Option.some.injEq] at h
      subst h
      intro e' he'
      cases he'
  | cons e es ih =>
      simp only [move_entities] at h
      cases hm : moveEntity dt (-w.width / 2 + PLAYER_SIZE.x / 2)
          (w.width / 2 - PLAYER_SIZE.x / 2) e with
      | none => rw [hm] at h; cases h
      | some e1 =>
          cases hr : move_entities dt w es with
          | none => rw [hm, hr] at h; cases h
          | some es1 =>
              rw [hm, hr] at h
              injection h with h
              subst h
              intro e' he' hp
              rcases List.mem_cons.mp he' with rfl | hmem
              · exact moveEntity_player_bounds hm hp
              · exact ih es1 hr e' hmem hp

/-- Witness for C3 at a concrete input: window 800×600, a Player at the
origin with velocity (500, 0), tick of 1 second. -/
theorem player_x_within_bounds_witness :
    -(800 : ℚ) / 2 + PLAYER_SIZE.x / 2 ≤
        (⟨⟨⟨375, -250, 0⟩, ⟨50, 50, 1⟩⟩, ⟨500, 0⟩, true⟩ : MovingEntity).transform.translation.x ∧
      (⟨⟨⟨375, -250, 0⟩, ⟨50, 50, 1⟩⟩, ⟨500, 0⟩, true⟩ : MovingEntity).transform.translation.x ≤
        (800 : ℚ) / 2 - PLAYER_SIZE.x / 2 :=
  player_x_within_bounds 1 ⟨800, 600⟩
    [⟨⟨⟨0, -250, 0⟩, ⟨50, 50, 1⟩⟩, ⟨500, 0⟩, true⟩]
    [⟨⟨⟨375, -250, 0⟩, ⟨50, 50, 1⟩⟩, ⟨500, 0⟩, true⟩]
    (by norm_num)
    (by norm_num [move_entities, moveEntity, rustClamp, Vec3.add, Vec3.mulScalar,
      Vec2.extend, PLAYER_SIZE])
    _ (List.mem_singleton.mpr rfl) rfl

/-- C4, counterexample: with the clamp active the updated position is NOT
`old position + velocity × elapsed_seconds`: a Player at x = 0 with velocity
(500, 0) and dt = 1 in an 800-wide window ends at x = 375, not 500. -/
theorem move_entities_not_pure_integration :
    move_entities 1 ⟨800, 600⟩ [⟨⟨⟨0, -250, 0⟩, ⟨50, 50, 1⟩⟩, ⟨500, 0⟩, true⟩] =
      some [⟨⟨⟨375, -250, 0⟩, ⟨50, 50, 1⟩⟩, ⟨500, 0⟩, true⟩] ∧
    (375 : ℚ) ≠ (0 : ℚ) + 500 * 1 := by
  constructor
  · norm_num [move_entities, moveEntity, rustClamp, Vec3.add, Vec3.mulScalar,
      Vec2.extend, PLAYER_SIZE]
  · norm_num

/-- C4, amended: with zero matched entities the integrator is a no-op; every
matched entity goes through the loop body; a non-Player entity's updated
position is exactly `old + velocity × dt` (velocity and scale untouched); the
Player's y and z integrate the same way while its x is the clamp of the
integrated value. -/
theorem move_entities_integration :
    (∀ (dt : ℚ) (w : Window), move_entities dt w [] = some []) ∧
    (∀ (dt : ℚ) (w : Window) (es es' : List MovingEntity),
      move_entities dt w es = some es' →
      List.Forall₂ (fun e e' => moveEntity dt (-w.width / 2 + PLAYER_SIZE.x / 2)
        (w.width / 2 - PLAYER_SIZE.x / 2) e = some e') es es') ∧
    (∀ (dt lo hi : ℚ) (e e' : MovingEntity), e.isPlayer = false →
      moveEntity dt lo hi e = some e' →
      e'.transform.translation =
          e.transform.translation.add ((e.velocity.extend 0).mulScalar dt) ∧
        e'.velocity = e.velocity ∧ e'.transform.scale = e.transform.scale) ∧
    (∀ (dt lo hi : ℚ) (e e' : MovingEntity), e.isPlayer = true →
      moveEntity dt lo hi e = some e' →
      ∃ cx, rustClamp (e.transform.translation.x + e.velocity.x * dt) lo hi = some cx ∧
        e'.transform.translation =
          ⟨cx, e.transform.translation.y + e.velocity.y * dt, e.transform.translation.z⟩ ∧
        e'.velocity = e.velocity ∧ e'.transform.scale = e.transform.scale) := by
  refine ⟨fun dt w => rfl, ?_, ?_, ?_⟩
  · intro dt w es
    induction es with
    | nil =>
        intro es' h
        simp only [move_entities, Option.some.injEq] at h
        subst h
        exact List.Forall₂.nil
    | cons e es ih =>
        intro es' h
        simp only [move_entities] at h
        cases hm : moveEntity dt (-w.width / 2 + PLAYER_SIZE.x / 2)
            (w.width / 2 - PLAYER_SIZE.x / 2) e with
        | none => rw [hm] at h; cases h
        | some e1 =>
            cases hr : move_entities dt w es with
            | none => rw [hm, hr] at h; cases h
            | some es1 =>
                rw [hm, hr] at h
                injection h with h
                subst h
                exact List.Forall₂.cons hm (ih es1 hr)
  · intro dt lo hi e e' hp h
    simp only [moveEntity, hp, Bool.false_eq_true, if_false] at h
    injection h with h
    subst h
    exact ⟨rfl, rfl, rfl⟩
  · intro dt lo hi e e' hp h
    simp only [moveEntity, hp, if_true] at h
    cases hc : rustClamp (e.transform.translation.add ((e.velocity.extend 0).mulScalar dt)).x lo hi with
    | none => rw [hc] at h; cases h
    | some cx =>
        rw [hc] at h
        injection h with h
        subst h
        refine ⟨cx, ?_, ?_, rfl, rfl⟩
        · simpa only [Vec3.add, Vec2.extend, Vec3.mulScalar] using hc
        · simp only [Vec3.add, Vec2.extend, Vec3.mulScalar, Vec3.mk.injEq,
            zero_mul, add_zero]

/-- Witness for C4's amended theorem: a non-Player entity (an Enemy at
(0, 300) with velocity (0, -300)) falls to (0, 0) after a one-second tick. -/
theorem move_entities_integration_witness :
    (⟨⟨⟨0, 0, 0⟩, ⟨40, 40, 1⟩⟩, ⟨0, -300⟩, false⟩ : MovingEntity).transform.translation =
        Vec3.add ⟨0, 300, 0⟩ (Vec3.mulScalar (Vec2.extend ⟨0, -300⟩ 0) 1) ∧
      (⟨⟨⟨0, 0, 0⟩, ⟨40, 40, 1⟩⟩, ⟨0, -300⟩, false⟩ : MovingEntity).velocity = ⟨0, -300⟩ ∧
      (⟨⟨⟨0, 0, 0⟩, ⟨40, 40, 1⟩⟩, ⟨0, -300⟩, false⟩ : MovingEntity).transform.scale = ⟨40, 40, 1⟩ :=
  move_entities_integration.2.2.1 1 (-375) 375
    ⟨⟨⟨0, 300, 0⟩, ⟨40, 40, 1⟩⟩, ⟨0, -300⟩, false⟩
    ⟨⟨⟨0, 0, 0⟩, ⟨40, 40, 1⟩⟩, ⟨0, -300⟩, false⟩
    rfl
    (by norm_num [moveEntity, Vec3.add, Vec3.mulScalar, Vec2.extend])

/-- C9, counterexample: for a window narrower than the Player (width 10), the
clamp bounds are inverted and `clamp` panics (modelled as `none`): the
integrator does not complete. -/
theorem move_entities_panics_on_narrow_window :
    move_entities 0 ⟨10, 600⟩ [⟨⟨⟨0, -250, 0⟩, ⟨50, 50, 1⟩⟩, ⟨0, 0⟩, true⟩] = none := by
  norm_num [move_entities, moveEntity, rustClamp, Vec3.add, Vec3.mulScalar,
    Vec2.extend, PLAYER_SIZE]

/-- C9, amended: whenever the window is at least as wide as the Player, the
integrator is total — it completes for every velocity and every elapsed
duration — and with zero matched entities it is a no-op. -/
theorem move_entities_total (w : Window) (hW : PLAYER_SIZE.x ≤ w.width) :
    (∀ (dt : ℚ) (es : List MovingEntity), ∃ es', move_entities dt w es = some es') ∧
    (∀ dt : ℚ, move_entities dt w [] = some []) := by
  have hlohi : -w.width / 2 + PLAYER_SIZE.x / 2 ≤ w.width / 2 - PLAYER_SIZE.x / 2 := by
    simp only [PLAYER_SIZE] at hW ⊢
    linarith
  refine ⟨?_, fun dt => rfl⟩
  intro dt es
  induction es with
  | nil => exact ⟨[], rfl⟩
  | cons e es ih =>
      obtain ⟨es1, hes1⟩ := ih
      have he1 : ∃ e1, moveEntity dt (-w.width / 2 + PLAYER_SIZE.x / 2)
          (w.width / 2 - PLAYER_SIZE.x / 2) e = some e1 := by
        simp only [moveEntity]
        by_cases hpe : e.isPlayer = true
        · rw [if_pos hpe]
          obtain ⟨c, hc⟩ := rustClamp_isSome
            (e.transform.translation.add ((e.velocity.extend 0).mulScalar dt)).x _ _ hlohi
          rw [hc]
          exact ⟨_, rfl⟩
        · rw [if_neg hpe]
          exact ⟨_, rfl⟩
      obtain ⟨e1, he1⟩ := he1
      refine ⟨e1 :: es1, ?_⟩
      simp only [move_entities]
      rw [he1, hes1]

/-- Witness for C9's amended theorem: an 800-wide window, empty entity list. -/
theorem move_entities_total_witness :
    move_entities 7 ⟨800, 600⟩ [] = some [] :=
  (move_entities_total ⟨800, 600⟩ (by norm_num [PLAYER_SIZE])).2 7

/-- One `tick` of a repeating timer with positive period, starting with
nonnegative elapsed time and a nonnegative delta: the period is unchanged,
the new elapsed time lies inside the period, and elapsed time plus completed
periods account exactly for the added delta. -/
theorem Timer.tick_accounting {t : Timer} {d : ℚ} (hP : 0 < t.duration)
    (he0 : 0 ≤ t.elapsed) (hd : 0 ≤ d) :
    (t.tick d).duration = t.duration ∧
    0 ≤ (t.tick d).elapsed ∧ (t.tick d).elapsed < t.duration ∧
    (t.tick d).elapsed + t.duration * ((t.tick d).timesFinishedThisTick : ℚ) =
      t.elapsed + d := by
  simp only [Timer.tick]
  by_cases h : t.duration ≤ t.elapsed + d
  · rw [if_pos h]
    dsimp only
    have hfl : (⌊(t.elapsed + d) / t.duration⌋ : ℚ) ≤ (t.elapsed + d) / t.duration :=
      Int.floor_le _
    have hfu : (t.elapsed + d) / t.duration < ⌊(t.elapsed + d) / t.duration⌋ + 1 :=
      Int.lt_floor_add_one _
    have h1 : t.duration * (⌊(t.elapsed + d) / t.duration⌋ : ℚ) ≤ t.elapsed + d := by
      rw [mul_comm]
      exact (le_div_iff₀ hP).mp hfl
    have h2 : t.elapsed + d <
        t.duration * (⌊(t.elapsed + d) / t.duration⌋ : ℚ) + t.duration := by
      have h2' := (div_lt_iff₀ hP).mp hfu
      rw [add_mul, one_mul] at h2'
      linarith [mul_comm t.duration (⌊(t.elapsed + d) / t.duration⌋ : ℚ)]
    have hnn : 0 ≤ ⌊(t.elapsed + d) / t.duration⌋ := by
      have h1q : (1 : ℚ) ≤ (t.elapsed + d) / t.duration := (one_le_div hP).mpr h
      have h1i : (1 : ℤ) ≤ ⌊(t.elapsed + d) / t.duration⌋ := by
        rw [Int.le_floor]
        push_cast
        exact h1q
      linarith
    have hcast : ((⌊(t.elapsed + d) / t.duration⌋.toNat : ℕ) : ℚ) =
        (⌊(t.elapsed + d) / t.duration⌋ : ℚ) := by
      have h' := congrArg (fun z : ℤ => (z : ℚ)) (Int.toNat_of_nonneg hnn)
      push_cast at h'
      exact h'
    refine ⟨rfl, by linarith, by linarith, ?_⟩
    rw [hcast]
    ring
  · rw [if_neg h]
    dsimp only
    refine ⟨rfl, by linarith, lt_of_not_ge h, ?_⟩
    simp only [Nat.cast_zero, mul_zero, add_zero]

/-- Running the timer over a list of nonnegative ticks preserves the period
and the in-period invariant, and the completed periods account exactly for
the total elapsed time. -/
theorem runTimer_accounting (P : ℚ) (hP : 0 < P) :
    ∀ (ds : List ℚ) (t : Timer), t.duration = P → 0 ≤ t.elapsed →
      (∀ d ∈ ds, 0 ≤ d) →
      (runTimer t ds).duration = P ∧ 0 ≤ (runTimer t ds).elapsed ∧
      (ds ≠ [] → (runTimer t ds).elapsed < P) ∧
      (runTimer t ds).elapsed + P * (totalFires t ds : ℚ) = t.elapsed + ds.sum := by
  intro ds
  induction ds with
  | nil =>
      intro t hdur he0 _
      refine ⟨hdur, he0, fun hne => absurd rfl hne, ?_⟩
      simp only [runTimer, totalFires, List.sum_nil, Nat.cast_zero, mul_zero, add_zero]
  | cons d ds ih =>
      intro t hdur he0 hds
      have hd : 0 ≤ d := hds d (List.mem_cons_self d ds)
      have hstep := Timer.tick_accounting (t := t) (d := d) (hdur.symm ▸ hP) he0 hd
      obtain ⟨hdur', he0', heP', hacc'⟩ := hstep
      have hrest := ih (t.tick d) (hdur'.trans hdur) he0'
        (fun x hx => hds x (List.mem_cons_of_mem d hx))
      obtain ⟨hdur'', he0'', heP'', hacc''⟩ := hrest
      refine ⟨hdur'', he0'', ?_, ?_⟩
      · intro _
        cases ds with
        | nil => simpa only [runTimer] using (hdur ▸ heP')
        | cons d2 ds2 => exact heP'' (by simp)
      · simp only [runTimer, totalFires, List.sum_cons]
        push_cast
        have : (runTimer (t.tick d) ds).elapsed + P * (totalFires (t.tick d) ds : ℚ) =
            (t.tick d).elapsed + ds.sum := hacc''
        push_cast at this
        linarith [hdur ▸ hacc']

/-- When no tick completes more than one period, the per-tick edge trigger
(`just_finished`) counts exactly the completed periods. -/
theorem spawnCount_eq_totalFires :
    ∀ (ds : List ℚ) (t : Timer), atMostOnePerTick t ds = true →
      spawnCount t ds = totalFires t ds := by
  intro ds
  induction ds with
  | nil => intro t _; rfl
  | cons d ds ih =>
      intro t h
      simp only [atMostOnePerTick, Bool.and_eq_true, decide_eq_true_eq] at h
      obtain ⟨h1, h2⟩ := h
      simp only [spawnCount, totalFires]
      rw [ih (t.tick d) h2]
      rcases Nat.le_one_iff_eq_zero_or_eq_one.mp h1 with h0 | h1'
      · simp [Timer.justFinished, h0]
      · simp [Timer.justFinished, h1']

/-- C6, counterexample: a single tick of 1.5 seconds crosses two 0.75-second
period boundaries of a fresh spawn timer, but only one spawn event occurs. -/
theorem spawner_drops_extra_boundaries :
    spawnCount (Timer.fromSeconds ENEMY_SPAWN_TIME) [3 / 2] = 1 ∧
    ⌊((3 : ℚ) / 2) / ENEMY_SPAWN_TIME⌋ = 2 := by
  constructor
  · norm_num [spawnCount, Timer.fromSeconds, Timer.tick, Timer.justFinished,
      ENEMY_SPAWN_TIME]
  · norm_num [ENEMY_SPAWN_TIME]

/-- C6, amended: for any sequence of nonnegative tick durations in which no
single tick crosses more than one period boundary, a fresh repeating spawn
timer produces exactly as many spawn events as period boundaries the
cumulative elapsed time crosses, however that time is split across ticks. -/
theorem spawnCount_eq_crossed_boundaries (ds : List ℚ) (hds : ∀ d ∈ ds, 0 ≤ d)
    (h1 : atMostOnePerTick (Timer.fromSeconds ENEMY_SPAWN_TIME) ds = true) :
    (spawnCount (Timer.fromSeconds ENEMY_SPAWN_TIME) ds : ℤ) =
      ⌊ds.sum / ENEMY_SPAWN_TIME⌋ := by
  have hP : (0 : ℚ) < ENEMY_SPAWN_TIME := by norm_num [ENEMY_SPAWN_TIME]
  obtain ⟨hdur, he0, hePcond, hacc⟩ :=
    runTimer_accounting ENEMY_SPAWN_TIME hP ds (Timer.fromSeconds ENEMY_SPAWN_TIME)
      rfl le_rfl hds
  have heP : (runTimer (Timer.fromSeconds ENEMY_SPAWN_TIME) ds).elapsed <
      ENEMY_SPAWN_TIME := by
    cases ds with
    | nil => simpa only [runTimer, Timer.fromSeconds] using hP
    | cons a l => exact hePcond (by simp)
  rw [spawnCount_eq_totalFires ds _ h1]
  symm
  rw [Int.floor_eq_iff]
  have hsum : (Timer.fromSeconds ENEMY_SPAWN_TIME).elapsed = 0 := rfl
  rw [hsum, zero_add] at hacc
  constructor
  · rw [le_div_iff₀ hP]
    push_cast
    linarith [mul_comm ((totalFires (Timer.fromSeconds ENEMY_SPAWN_TIME) ds : ℚ))
      ENEMY_SPAWN_TIME]
  · rw [div_lt_iff₀ hP]
    push_cast
    linarith [mul_comm ((totalFires (Timer.fromSeconds ENEMY_SPAWN_TIME) ds : ℚ))
      ENEMY_SPAWN_TIME]

/-- Witness for C6's amended theorem: three half-second ticks cross two
boundaries of the 0.75-second period and spawn exactly two enemies. -/
theorem spawnCount_eq_crossed_boundaries_witness :
    (spawnCount (Timer.fromSeconds ENEMY_SPAWN_TIME) [1 / 2, 1 / 2, 1 / 2] : ℤ) =
      ⌊([1 / 2, 1 / 2, 1 / 2] : List ℚ).sum / ENEMY_SPAWN_TIME⌋ :=
  spawnCount_eq_crossed_boundaries [1 / 2, 1 / 2, 1 / 2]
    (by intro d hd; fin_cases hd <;> norm_num)
    (by norm_num [atMostOnePerTick, Timer.fromSeconds, Timer.tick, ENEMY_SPAWN_TIME])

/-- C5: one spawner tick creates at most one Enemy entity, however large the
elapsed time: every completed call spawns a single optional entity;
concretely, a fresh timer ticked by ten full periods (7.5 s) records ten
completed periods yet spawns exactly one Enemy. -/
theorem enemy_spawner_at_most_once_per_tick :
    (∀ (delta : ℚ) (w : Window) (rngX : ℚ) (t t' : Timer) (sp : Option Entity),
      enemy_spawner delta w rngX t = some (t', sp) → sp.toList.length ≤ 1) ∧
    ((Timer.fromSeconds ENEMY_SPAWN_TIME).tick (15 / 2)).timesFinishedThisTick = 10 ∧
    enemy_spawner (15 / 2) ⟨800, 600⟩ 0 (Timer.fromSeconds ENEMY_SPAWN_TIME) =
      some (⟨ENEMY_SPAWN_TIME, 0, 10⟩,
        some ⟨false, true, false, false, ⟨⟨0, 300, 0⟩, ENEMY_SIZE.extend 1⟩,
          some ⟨0, -ENEMY_SPEED⟩⟩) := by
  refine ⟨?_, ?_, ?_⟩
  · intro delta w rngX t t' sp h
    simp only [enemy_spawner] at h
    by_cases hj : (t.tick delta).justFinished = true
    · rw [if_pos hj] at h
      cases hg : gen_range (-w.width / 2 + ENEMY_SIZE.x / 2)
          (w.width / 2 - ENEMY_SIZE.x / 2) rngX with
      | none => rw [hg] at h; cases h
      | some x =>
          rw [hg] at h
          injection h with h
          injection h with h1 h2
          subst h2
          simp
    · rw [if_neg hj] at h
      injection h with h
      injection h with h1 h2
      subst h2
      simp
  · norm_num [Timer.fromSeconds, Timer.tick, ENEMY_SPAWN_TIME]
    rfl
  · norm_num [enemy_spawner, gen_range, Timer.fromSeconds, Timer.tick,
      Timer.justFinished, ENEMY_SPAWN_TIME, ENEMY_SIZE]
    rfl

/-- C7, counterexample: with a window no wider than an Enemy (width 40) the
spawn range `-W/2 + 20 .. W/2 - 20` is empty, and on the tick in which the
timer fires `gen_range` panics (modelled as `none`): the spawn operation does
have an error condition. -/
theorem enemy_spawner_panics_on_narrow_window :
    enemy_spawner (3 / 4) ⟨40, 600⟩ 0 (Timer.fromSeconds ENEMY_SPAWN_TIME) = none ∧
    ((Timer.fromSeconds ENEMY_SPAWN_TIME).tick (3 / 4)).justFinished = true := by
  constructor
  · norm_num [enemy_spawner, gen_range, Timer.fromSeconds, Timer.tick,
      Timer.justFinished, ENEMY_SPAWN_TIME, ENEMY_SIZE]
  · norm_num [Timer.fromSeconds, Timer.tick, Timer.justFinished, ENEMY_SPAWN_TIME]

/-- C7, amended: whenever the spawner fires (the ticked timer just finished)
with a window wider than an Enemy, it creates exactly one Enemy entity, at
y = window_height / 2, with x the random sample from `x_min..x_max` — hence
inside the closed interval [-W/2 + half_enemy_width, W/2 - half_enemy_width]
— scale `ENEMY_SIZE.extend(1.0)` and velocity (0, -ENEMY_SPEED); when it
fires with a window no wider than an Enemy, the random range is empty and
`gen_range` panics. -/
theorem enemy_spawner_fires :
    (∀ (delta : ℚ) (w : Window) (rngX : ℚ) (t : Timer),
      -w.width / 2 + ENEMY_SIZE.x / 2 ≤ rngX →
      rngX < w.width / 2 - ENEMY_SIZE.x / 2 →
      (t.tick delta).justFinished = true →
      enemy_spawner delta w rngX t =
        some (t.tick delta, some ⟨false, true, false, false,
          ⟨⟨rngX, w.height / 2, 0⟩, ENEMY_SIZE.extend 1⟩, some ⟨0, -ENEMY_SPEED⟩⟩) ∧
      -w.width / 2 + ENEMY_SIZE.x / 2 ≤ rngX ∧
        rngX ≤ w.width / 2 - ENEMY_SIZE.x / 2) ∧
    (∀ (delta : ℚ) (w : Window) (rngX : ℚ) (t : Timer),
      w.width ≤ ENEMY_SIZE.x →
      (t.tick delta).justFinished = true →
      enemy_spawner delta w rngX t = none) := by
  constructor
  · intro delta w rngX t hlo hhi hfire
    refine ⟨?_, hlo, le_of_lt hhi⟩
    have hrange : gen_range (-w.width / 2 + ENEMY_SIZE.x / 2)
        (w.width / 2 - ENEMY_SIZE.x / 2) rngX = some rngX := by
      unfold gen_range
      rw [if_pos (lt_of_le_of_lt hlo hhi)]
    simp only [enemy_spawner, hfire, if_true, hrange]
  · intro delta w rngX t hw hfire
    have hrange : gen_range (-w.width / 2 + ENEMY_SIZE.x / 2)
        (w.width / 2 - ENEMY_SIZE.x / 2) rngX = none := by
      unfold gen_range
      rw [if_neg (not_lt.mpr (by simp only [ENEMY_SIZE] at hw ⊢; linarith))]
    simp only [enemy_spawner, hfire, if_true, hrange]

/-- Witness for C7's amended theorem: a fresh timer ticked by exactly one
period fires; sample x = 0 in an 800×600 window. -/
theorem enemy_spawner_fires_witness :
    enemy_spawner (3 / 4) ⟨800, 600⟩ 0 (Timer.fromSeconds ENEMY_SPAWN_TIME) =
      some ((Timer.fromSeconds ENEMY_SPAWN_TIME).tick (3 / 4),
        some ⟨false, true, false, false,
          ⟨⟨0, (600 : ℚ) / 2, 0⟩, ENEMY_SIZE.extend 1⟩, some ⟨0, -ENEMY_SPEED⟩⟩) ∧
    -(800 : ℚ) / 2 + ENEMY_SIZE.x / 2 ≤ 0 ∧
      (0 : ℚ) ≤ (800 : ℚ) / 2 - ENEMY_SIZE.x / 2 :=
  enemy_spawner_fires.1 (3 / 4) ⟨800, 600⟩ 0 (Timer.fromSeconds ENEMY_SPAWN_TIME)
    (by norm_num [ENEMY_SIZE]) (by norm_num [ENEMY_SIZE])
    (by norm_num [Timer.fromSeconds, Timer.tick, Timer.justFinished, ENEMY_SPAWN_TIME])

/-- `despawn_all_entities` keeps exactly the entities with neither the Enemy
marker nor a Text component, each unchanged. -/
theorem despawn_all_entities_mem (es : List Entity) :
    (∀ e ∈ es, e.enemy = false → e.text = false → e ∈ despawn_all_entities es) ∧
    (∀ e ∈ despawn_all_entities es, e ∈ es ∧ e.enemy = false ∧ e.text = false) := by
  induction es with
  | nil =>
      constructor
      · intro e he
        cases he
      · intro e he
        cases he
  | cons a es ih =>
      obtain ⟨ih1, ih2⟩ := ih
      constructor
      · intro e he hen het
        rcases List.mem_cons.mp he with rfl | hmem
        · simp only [despawn_all_entities, hen, het, Bool.or_self,
            Bool.false_eq_true, if_false]
          exact List.mem_cons_self _ _
        · simp only [despawn_all_entities]
          by_cases hat : (a.enemy || a.text) = true
          · rw [if_pos hat]
            exact ih1 e hmem hen het
          · rw [if_neg hat]
            exact List.mem_cons_of_mem a (ih1 e hmem hen het)
      · intro e he
        simp only [despawn_all_entities] at he
        by_cases hat : (a.enemy || a.text) = true
        · rw [if_pos hat] at he
          obtain ⟨h1, h2, h3⟩ := ih2 e he
          exact ⟨List.mem_cons_of_mem a h1, h2, h3⟩
        · rw [if_neg hat] at he
          rcases List.mem_cons.mp he with rfl | hmem
          · simp only [Bool.or_eq_true, not_or, Bool.not_eq_true] at hat
            exact ⟨List.mem_cons_self _ _, hat.1, hat.2⟩
          · obtain ⟨h1, h2, h3⟩ := ih2 e hmem
            exact ⟨List.mem_cons_of_mem a h1, h2, h3⟩

/-- C2: the collision monitor runs only while Playing (otherwise the tick
changes nothing); with no Player entity it is a no-op; when the unique Player
overlaps some Enemy, the Player entity is despawned and the state becomes
GameOver — the single Playing→GameOver transition of the tick — and when no
Enemy overlaps the Player, nothing changes. -/
theorem check_collisions_spec :
    (∀ (es : List Entity) (st : GameState), st ≠ GameState.Playing →
      check_collisions_system es st = (es, st)) ∧
    (∀ (es : List Entity) (st : GameState), (∀ e ∈ es, e.player = false) →
      check_collisions_system es st = (es, st)) ∧
    (∀ (es : List Entity) (p : Entity),
      getSingle (fun e => e.player) es = some p →
      (∃ en ∈ es, en.enemy = true ∧
        collide p.transform.translation (p.transform.scale.truncate)
          en.transform.translation (en.transform.scale.truncate) = true) →
      (check_collisions_system es GameState.Playing).2 = GameState.GameOver ∧
      ∀ e ∈ (check_collisions_system es GameState.Playing).1, e.player = false) ∧
    (∀ (es : List Entity) (p : Entity),
      getSingle (fun e => e.player) es = some p →
      (∀ en ∈ es, en.enemy = true →
        collide p.transform.translation (p.transform.scale.truncate)
          en.transform.translation (en.transform.scale.truncate) = false) →
      check_collisions_system es GameState.Playing = (es, GameState.Playing)) := by
  refine ⟨?_, ?_, ?_, ?_⟩
  · intro es st hst
    simp only [check_collisions_system, if_neg hst]
  · intro es st hall
    have hg : getSingle (fun e => e.player) es = none := by
      unfold getSingle
      have hfil : es.filter (fun e => e.player) = [] := by
        rw [List.filter_eq_nil_iff]
        intro a ha
        simp [hall a ha]
      rw [hfil]
    by_cases hst : st = GameState.Playing
    · simp [check_collisions_system, if_pos hst, check_collisions, hg, hst]
    · simp only [check_collisions_system, if_neg hst]
  · intro es p hp hex
    have hfind : ∃ en, (es.filter (fun e => e.enemy)).find? (fun en =>
        collide p.transform.translation (p.transform.scale.truncate)
          en.transform.translation (en.transform.scale.truncate)) = some en := by
      obtain ⟨en, hmem, hen, hcol⟩ := hex
      have hmf : en ∈ es.filter (fun e => e.enemy) :=
        List.mem_filter.mpr ⟨hmem, hen⟩
      cases hf : (es.filter (fun e => e.enemy)).find? (fun en =>
          collide p.transform.translation (p.transform.scale.truncate)
            en.transform.translation (en.transform.scale.truncate)) with
      | some x => exact ⟨x, rfl⟩
      | none =>
          exact absurd hcol (by
            have := List.find?_eq_none.mp hf en hmf
            simpa using this)
    obtain ⟨en, hen⟩ := hfind
    constructor
    · simp [check_collisions_system, check_collisions, hp, hen]
    · intro e he
      simp [check_collisions_system, check_collisions, hp, hen] at he
      exact he.2
  · intro es p hp hnone
    have hfind : (es.filter (fun e => e.enemy)).find? (fun en =>
        collide p.transform.translation (p.transform.scale.truncate)
          en.transform.translation (en.transform.scale.truncate)) = none := by
      rw [List.find?_eq_none]
      intro x hx
      have hx' := List.mem_filter.mp hx
      rw [hnone x hx'.1 hx'.2]
      simp
    simp [check_collisions_system, check_collisions, hp, hfind]

/-- C8: the GameOver→Playing transition happens exactly on a just-pressed
restart key while in GameOver; on that transition every Enemy and Text entity
is destroyed and a fresh Player is created at its start position (0, -250, 0)
with zero velocity; without the key press, or outside GameOver, the tick
changes nothing. -/
theorem restart_tick_spec :
    (∀ (key : Bool) (es : List Entity) (st : GameState),
      st ≠ GameState.GameOver → restart_tick key es st = (es, st)) ∧
    (∀ (es : List Entity) (st : GameState), restart_tick false es st = (es, st)) ∧
    (∀ (key : Bool) (es : List Entity),
      (restart_tick key es GameState.GameOver).2 = GameState.Playing → key = true) ∧
    (∀ es : List Entity,
      (restart_tick true es GameState.GameOver).2 = GameState.Playing ∧
      (∀ e ∈ (restart_tick true es GameState.GameOver).1,
        e.enemy = false ∧ e.text = false) ∧
      playerEntity ∈ (restart_tick true es GameState.GameOver).1 ∧
      playerEntity.transform.translation = ⟨0, -250, 0⟩ ∧
      playerEntity.velocity = some ⟨0, 0⟩) := by
  refine ⟨?_, ?_, ?_, ?_⟩
  · intro key es st hst
    simp only [restart_tick, if_neg hst]
  · intro es st
    by_cases hst : st = GameState.GameOver
    · simp only [restart_tick, if_pos hst, Bool.false_eq_true, if_false]
    · simp only [restart_tick, if_neg hst]
  · intro key es h
    cases key with
    | true => rfl
    | false =>
        simp only [restart_tick, if_pos rfl, Bool.false_eq_true, if_false] at h
        cases h
  · intro es
    obtain ⟨hkeep, hfrom⟩ := despawn_all_entities_mem es
    refine ⟨rfl, ?_, ?_, rfl, rfl⟩
    · intro e he
      simp only [restart_tick, if_pos rfl, if_pos rfl, setup_game] at he
      rcases List.mem_append.mp he with hleft | hright
      · obtain ⟨_, h2, h3⟩ := hfrom e hleft
        exact ⟨h2, h3⟩
      · rw [List.mem_singleton.mp hright]
        exact ⟨rfl, rfl⟩
    · simp only [restart_tick, if_pos rfl, if_pos rfl, setup_game]
      exact List.mem_append_right _ (List.mem_singleton.mpr rfl)

/-- C10: the restart cleanup `despawn_all_entities` despawns only entities
tagged Enemy or carrying Text: every other entity — in particular the camera
spawned by `setup_camera` — is left in the store unchanged, and everything
kept comes from the store. -/
theorem restart_cleanup_preserves_others (es : List Entity) :
    (∀ e ∈ es, e.enemy = false → e.text = false → e ∈ despawn_all_entities es) ∧
    (∀ e ∈ despawn_all_entities es, e ∈ es ∧ e.enemy = false ∧ e.text = false) ∧
    (cameraEntity ∈ es → cameraEntity ∈ despawn_all_entities es) := by
  obtain ⟨h1, h2⟩ := despawn_all_entities_mem es
  exact ⟨h1, h2, fun hc => h1 cameraEntity hc rfl rfl⟩

end RustyDodger
